import Mathlib

/-
Verification development for the Fiverr repository (four Python scripts):
a call-orchestration FastAPI service (src/Calling Agent/Calling-Agent.py),
two copies of a legal-chatbot Flask backend (src/Chatbot.py and
src/Chatbot/Chatbot.py), and a video-captioning batch script (src/v.py).
Each Python function relevant to the claims is shallowly embedded as an
executable Lean definition; external services (the LLM analysis, the voice
platform, Google APIs) are modelled as oracle inputs to those definitions.
-/

namespace Spec2Proof

/-! ## Calling-Agent: data model

`call_contexts` is a defaultdict mapping a call id to a per-call context
dictionary (Calling-Agent.py lines 103-114).  The context is embedded as a
structure with the same fields and the same default values; `twilio_sid` and
`cost` are absent from the default literal and only added later by
`process_call` / the end-of-call webhook branch, so they are `Option`-valued
with default `none`. -/

structure CallContext where
  ivr_path : List (String × String)
  state : String
  retry_count : Nat
  max_retries : Nat
  last_dtmf : Option String
  control_url : Option String
  message_injected : Bool
  message_delivered : Bool
  ending : Bool
  assistant_transcript : String
  twilio_sid : Option String
  cost : Option ℚ

def initCtx : CallContext :=
  { ivr_path := []
    state := "initial"
    retry_count := 0
    max_retries := 3
    last_dtmf := none
    control_url := none
    message_injected := false
    message_delivered := false
    ending := false
    assistant_transcript := ""
    twilio_sid := none
    cost := none }

/-- The `call_contexts` defaultdict: a total map from call id to context,
every absent key reading as the default context. -/
def CallState : Type := String → CallContext

def initState : CallState := fun _ => initCtx

def updCtx (st : CallState) (cid : String) (c : CallContext) : CallState :=
  fun x => if x = cid then c else st x

/-- Result structure of `analyze_conversation` (an external OpenAI call,
lines 124-166); it is an oracle input to the webhook handlers.  `ivr_options`
is the JSON object mapping option numbers to descriptions, embedded as an
association list in insertion order (Python dict iteration order). -/
structure IvrAnalysis where
  is_human : Bool
  ivr_detected : Bool
  ivr_options : List (String × String)
  scenario : String

/-- `Config.BASE_SCRIPT` (line 69). -/
def BASE_SCRIPT : String :=
  "Hi, this is Abhimanyu from Paintworks Finance limited. We help businesses like yours with Business Loans, Investment Strategies and Cash Flow Solutions. I\x27d love to connect and explore how we can support your growth. Feel free to reach out or visit fivewaysaccounting.com to schedule a call. Looking forward to speaking with you!"

/-- Python `str.lower()` (ASCII case folding suffices for the literals used). -/
def lowerStr (s : String) : String := String.mk (s.data.map Char.toLower)

/-- Contiguous-sublist test on character lists. -/
def infixOfList (needle : List Char) : List Char → Bool
  | [] => needle.isEmpty
  | c :: t => needle.isPrefixOf (c :: t) || infixOfList needle t

/-- Python `needle in haystack` substring test. -/
def containsSub (haystack needle : String) : Bool :=
  infixOfList needle.data haystack.data

/-- The check `"accounts payable" in desc.lower()` (line 210). -/
def apMatch (p : String × String) : Bool :=
  containsSub (lowerStr p.2) "accounts payable"

/-- The check `"accounts" in desc.lower() or "finance" in desc.lower()` (line 219). -/
def gfMatch (p : String × String) : Bool :=
  containsSub (lowerStr p.2) "accounts" || containsSub (lowerStr p.2) "finance"

/-- The check for receptionist / operator / main (line 233). -/
def recMatch (p : String × String) : Bool :=
  containsSub (lowerStr p.2) "receptionist" || containsSub (lowerStr p.2) "operator" ||
    containsSub (lowerStr p.2) "main"

/-- `determine_ivr_path` (lines 198-238).  A `for option, desc in
ivr_options.items(): if cond: return option` loop is the first match of the
predicate, hence `List.find?`.  Line 205 computes
`context = call_contexts.get(...) if 'message' in globals() else {}`; the
module has no global named `message`, so `context` is always the empty dict
and `context.get("in_submenu", False)` is always `False`: in the
`general_finance` scenario only the first-level branch ever runs. -/
def determine_ivr_path (a : IvrAnalysis) : String :=
  if !a.ivr_detected then ""
  else if a.scenario = "direct_departments" then
    match a.ivr_options.find? apMatch with
    | some p => p.1
    | none => ""
  else if a.scenario = "general_finance" then
    match a.ivr_options.find? gfMatch with
    | some p => p.1
    | none => ""
  else if a.scenario = "no_finance" then
    match a.ivr_options.find? recMatch with
    | some p => p.1
    | none => ""
  else ""

/-- C4: for every analysis result, `determine_ivr_path` returns the empty
string when no IVR is detected; under scenario "direct_departments" it returns
the option number whose description contains "accounts payable"
(case-insensitively) if one exists and the empty string otherwise; under
scenario "no_finance" it returns the option number whose description contains
"receptionist", "operator", or "main" if one exists and the empty string
otherwise. -/
theorem determine_ivr_path_spec (a : IvrAnalysis) :
    (a.ivr_detected = false → determine_ivr_path a = "") ∧
    (a.ivr_detected = true → a.scenario = "direct_departments" →
      ((∀ p ∈ a.ivr_options, apMatch p = false) → determine_ivr_path a = "") ∧
      (∀ p ∈ a.ivr_options, apMatch p = true →
        ∃ q ∈ a.ivr_options, apMatch q = true ∧ determine_ivr_path a = q.1)) ∧
    (a.ivr_detected = true → a.scenario = "no_finance" →
      ((∀ p ∈ a.ivr_options, recMatch p = false) → determine_ivr_path a = "") ∧
      (∀ p ∈ a.ivr_options, recMatch p = true →
        ∃ q ∈ a.ivr_options, recMatch q = true ∧ determine_ivr_path a = q.1)) := by
  refine ⟨?_, ?_, ?_⟩
  · intro h
    simp [determine_ivr_path, h]
  · intro hI hS
    constructor
    · intro hAll
      have hNone : a.ivr_options.find? apMatch = none := by
        rw [List.find?_eq_none]
        intro p hp
        simp [hAll p hp]
      simp [determine_ivr_path, hI, hS, hNone]
    · intro p hp hm
      cases hF : a.ivr_options.find? apMatch with
      | none =>
        rw [List.find?_eq_none] at hF
        exact absurd hm (by simpa using hF p hp)
      | some q =>
        refine ⟨q, List.mem_of_find?_eq_some hF, List.find?_some hF, ?_⟩
        simp [determine_ivr_path, hI, hS, hF]
  · intro hI hS
    have hS1 : a.scenario ≠ "direct_departments" := by
      rw [hS]; decide
    have hS2 : a.scenario ≠ "general_finance" := by
      rw [hS]; decide
    constructor
    · intro hAll
      have hNone : a.ivr_options.find? recMatch = none := by
        rw [List.find?_eq_none]
        intro p hp
        simp [hAll p hp]
      simp [determine_ivr_path, hI, hS, hS1, hS2, hNone]
    · intro p hp hm
      cases hF : a.ivr_options.find? recMatch with
      | none =>
        rw [List.find?_eq_none] at hF
        exact absurd hm (by simpa using hF p hp)
      | some q =>
        refine ⟨q, List.mem_of_find?_eq_some hF, List.find?_some hF, ?_⟩
        simp [determine_ivr_path, hI, hS, hS1, hS2, hF]

/-- Concrete analysis input used by the C4 witness: an IVR menu without an
accounts-payable option under scenario "direct_departments". -/
def aW4 : IvrAnalysis :=
  { is_human := false
    ivr_detected := true
    ivr_options := [("1", "Sales"), ("2", "Support")]
    scenario := "direct_departments" }

/-- Witness for C4: on a concrete direct-departments menu with no
accounts-payable option, the DTMF choice is the empty string. -/
theorem determine_ivr_path_spec_check : determine_ivr_path aW4 = "" :=
  ((determine_ivr_path_spec aW4).2.1 rfl rfl).1 (by decide)

/-! ## Calling-Agent: webhook handlers

The side effects performed by the handlers (message injection over the
control URL, DTMF via Twilio, ending the call, sheet updates) are recorded
as an action trace; every mutation of a call context is additionally
recorded as a `CtxWrite` tagged with whether it was executed inside
`async with locks[call_id]` (the only lock acquisition in the script, line
245). -/

inductive CallAction where
  | injectMessage (controlUrl : String) (text : String)
  | sendDtmf (sid : String) (digits : String)
  | endCall (controlUrl : String)
  | updateSheetCost (callId : String) (cost : ℚ)

/-- A single context-dictionary mutation, tagged with the call id, the field
written, and whether the lock for that call id was held at the time. -/
structure CtxWrite where
  callId : String
  field : String
  locked : Bool

/-- A webhook payload (`/vapi-webhook`, lines 538-575).  The result of
`analyze_conversation` on the conversation transcript is an oracle carried in
the message, as is the cost reported by an end-of-call event.
`monitorUrl` is `some url` when the payload has `call.monitor.controlUrl`
set to a truthy value. -/
structure WebhookMsg where
  eventType : String
  callId : String
  role : String
  transcript : String
  monitorUrl : Option String
  analysis : IvrAnalysis
  cost : ℚ

structure ConvOut where
  ctx : CallContext
  actions : List CallAction
  writes : List CtxWrite
  status : Option String

/-- `handle_conversation_update` (lines 240-307), acting on the context of
the call id named in the message.  Its whole body runs inside
`async with locks[call_id]`, so all of its writes carry `locked := true`.
A Python `return {"status": s}` is `some s`; falling off the end of the
function (no IVR detected and no human detected) returns `none`. -/
def handleConvUpdate (cid : String) (ctx : CallContext) (a : IvrAnalysis) : ConvOut :=
  if ctx.ending then ⟨ctx, [], [], some "skipped"⟩
  else if ctx.message_injected then ⟨ctx, [], [], some "skipped"⟩
  else if ctx.message_delivered then
    match ctx.control_url with
    | some url =>
        ⟨{ ctx with ending := true }, [CallAction.endCall url],
          [⟨cid, "ending", true⟩], some "skipped"⟩
    | none => ⟨ctx, [], [], some "skipped"⟩
  else if a.is_human && !ctx.message_injected then
    match ctx.control_url with
    | some url =>
        ⟨{ ctx with
            state := "human_detected"
            message_injected := true
            assistant_transcript := "" },
          [CallAction.injectMessage url BASE_SCRIPT],
          [⟨cid, "state", true⟩, ⟨cid, "message_injected", true⟩,
            ⟨cid, "assistant_transcript", true⟩],
          some "processed"⟩
    | none =>
        ⟨{ ctx with state := "human_detected" }, [], [⟨cid, "state", true⟩],
          some "processed"⟩
  else if a.ivr_detected then
    let dtmf := determine_ivr_path a
    if dtmf ≠ "" then
      let desc := (a.ivr_options.lookup dtmf).getD "Unknown"
      let ctx2 := { ctx with ivr_path := ctx.ivr_path ++ [(dtmf, desc)] }
      match ctx.twilio_sid with
      | some sid =>
          ⟨ctx2, [CallAction.sendDtmf sid dtmf], [⟨cid, "ivr_path", true⟩],
            some "processed"⟩
      | none => ⟨ctx2, [], [⟨cid, "ivr_path", true⟩], some "processed"⟩
    else
      if !ctx.message_injected then
        match ctx.control_url with
        | some url =>
            ⟨{ ctx with
                message_injected := true
                assistant_transcript := "" },
              [CallAction.injectMessage url BASE_SCRIPT],
              [⟨cid, "message_injected", true⟩, ⟨cid, "assistant_transcript", true⟩],
              some "processed"⟩
        | none => ⟨ctx, [], [], some "processed"⟩
      else ⟨ctx, [], [], some "processed"⟩
  else ⟨ctx, [], [], none⟩

/-- The control-URL store at the top of `vapi_webhook` (lines 544-548):
performed for every event type, outside any lock. -/
def storeMonitor (ctx : CallContext) (m : WebhookMsg) : CallContext :=
  match m.monitorUrl with
  | some url => if ctx.control_url = none then { ctx with control_url := some url } else ctx
  | none => ctx

def monitorWrites (ctx : CallContext) (m : WebhookMsg) : List CtxWrite :=
  match m.monitorUrl with
  | some _ => if ctx.control_url = none then [⟨m.callId, "control_url", false⟩] else []
  | none => []

structure WebhookOut where
  state : CallState
  actions : List CallAction
  writes : List CtxWrite
  response : Option String

/-- The delivery phrase checked by the assistant-transcript branch
(line 554). -/
def deliveredPhrase : String := "Looking forward to speaking with you"

/-- The assistant-transcript branch of `vapi_webhook` (lines 550-563).  It
mutates the context directly, without acquiring `locks[call_id]`, so all of
its writes carry `locked := false`.  The successive mutations of the source
(append to `assistant_transcript`, then possibly set `message_delivered`,
then possibly set `ending`) are merged into a single record update per
outcome. -/
def transcriptBranch (st : CallState) (m : WebhookMsg) (ctx1 : CallContext)
    (w1 : List CtxWrite) : WebhookOut :=
  if ctx1.message_injected && !ctx1.message_delivered then
    if containsSub (ctx1.assistant_transcript ++ m.transcript) deliveredPhrase then
      match ctx1.control_url with
      | some url =>
          ⟨updCtx st m.callId
              { ctx1 with
                  assistant_transcript := ctx1.assistant_transcript ++ m.transcript
                  message_delivered := true
                  ending := true },
            [CallAction.endCall url],
            w1 ++ [⟨m.callId, "assistant_transcript", false⟩,
              ⟨m.callId, "message_delivered", false⟩, ⟨m.callId, "ending", false⟩],
            some "processed"⟩
      | none =>
          ⟨updCtx st m.callId
              { ctx1 with
                  assistant_transcript := ctx1.assistant_transcript ++ m.transcript
                  message_delivered := true },
            [],
            w1 ++ [⟨m.callId, "assistant_transcript", false⟩,
              ⟨m.callId, "message_delivered", false⟩],
            some "processed"⟩
    else
      ⟨updCtx st m.callId
          { ctx1 with
              assistant_transcript := ctx1.assistant_transcript ++ m.transcript },
        [],
        w1 ++ [⟨m.callId, "assistant_transcript", false⟩], some "processed"⟩
  else ⟨updCtx st m.callId ctx1, [], w1, some "processed"⟩

/-- `vapi_webhook` (lines 538-575): store the control URL if newly seen, then
dispatch on the event type.  The conversation-update branch is the only one
whose context mutations run under `locks[call_id]`. -/
def vapiWebhookStep (st : CallState) (m : WebhookMsg) : WebhookOut :=
  if m.eventType = "transcript" ∧ m.role = "assistant" then
    transcriptBranch st m (storeMonitor (st m.callId) m) (monitorWrites (st m.callId) m)
  else if m.eventType = "conversation-update" then
    { state := updCtx st m.callId
        (handleConvUpdate m.callId (storeMonitor (st m.callId) m) m.analysis).ctx
      actions := (handleConvUpdate m.callId (storeMonitor (st m.callId) m) m.analysis).actions
      writes := monitorWrites (st m.callId) m ++
        (handleConvUpdate m.callId (storeMonitor (st m.callId) m) m.analysis).writes
      response := (handleConvUpdate m.callId (storeMonitor (st m.callId) m) m.analysis).status }
  else if m.eventType = "end-of-call" then
    { state := updCtx st m.callId { storeMonitor (st m.callId) m with cost := some m.cost }
      actions := [CallAction.updateSheetCost m.callId m.cost]
      writes := monitorWrites (st m.callId) m ++ [⟨m.callId, "cost", false⟩]
      response := some "processed" }
  else
    { state := updCtx st m.callId (storeMonitor (st m.callId) m)
      actions := []
      writes := monitorWrites (st m.callId) m
      response := some "processed" }

/-- C3: when an assistant transcript event arrives for a call whose context
has `message_injected` true and `message_delivered` false, and the
accumulated assistant transcript after appending the event text contains the
phrase "Looking forward to speaking with you", the handler sets
`message_delivered`, and if a control URL is stored for the call it issues an
end-call request and sets `ending`. -/
theorem transcript_delivery_spec (st : CallState) (m : WebhookMsg)
    (hT : m.eventType = "transcript") (hR : m.role = "assistant")
    (hInj : (storeMonitor (st m.callId) m).message_injected = true)
    (hDel : (storeMonitor (st m.callId) m).message_delivered = false)
    (hPhrase : containsSub
      ((storeMonitor (st m.callId) m).assistant_transcript ++ m.transcript)
      deliveredPhrase = true) :
    ((vapiWebhookStep st m).state m.callId).message_delivered = true ∧
    (∀ url, (storeMonitor (st m.callId) m).control_url = some url →
      CallAction.endCall url ∈ (vapiWebhookStep st m).actions ∧
      ((vapiWebhookStep st m).state m.callId).ending = true) := by
  unfold vapiWebhookStep
  rw [if_pos ⟨hT, hR⟩]
  unfold transcriptBranch
  have hcond : ((storeMonitor (st m.callId) m).message_injected &&
      !(storeMonitor (st m.callId) m).message_delivered) = true := by
    rw [hInj, hDel]; rfl
  rw [if_pos hcond, if_pos hPhrase]
  cases hC : (storeMonitor (st m.callId) m).control_url with
  | some url =>
    simp only [hC]
    refine ⟨by simp [updCtx], ?_⟩
    intro u hu
    cases hu
    exact ⟨by simp, by simp [updCtx]⟩
  | none =>
    simp only [hC]
    refine ⟨by simp [updCtx], ?_⟩
    intro u hu
    cases hu

/-- Concrete context and message for the C3 witness. -/
def ctxW3 : CallContext :=
  { initCtx with message_injected := true, control_url := some "http://ctrl" }

def stW3 : CallState := fun _ => ctxW3

def msgW3 : WebhookMsg :=
  { eventType := "transcript"
    callId := "call1"
    role := "assistant"
    transcript := "Looking forward to speaking with you!"
    monitorUrl := none
    analysis := aW4
    cost := 0 }

/-- Witness for C3: a concrete assistant transcript completing the delivery
phrase marks the message delivered, ends the call, and sets `ending`. -/
theorem transcript_delivery_spec_check :
    ((vapiWebhookStep stW3 msgW3).state "call1").message_delivered = true ∧
    CallAction.endCall "http://ctrl" ∈ (vapiWebhookStep stW3 msgW3).actions ∧
    ((vapiWebhookStep stW3 msgW3).state "call1").ending = true := by
  have h := transcript_delivery_spec stW3 msgW3 rfl rfl rfl rfl (by decide)
  have h2 := h.2 "http://ctrl" rfl
  exact ⟨h.1, h2.1, h2.2⟩

/-! ## Calling-Agent: at most one base-script injection per call (C1) -/

/-- Recognizes the injection of `BASE_SCRIPT` into a live call. -/
def isBaseInject : CallAction → Bool
  | CallAction.injectMessage _ t => t == BASE_SCRIPT
  | _ => false

def injCount (l : List CallAction) : Nat := (l.filter isBaseInject).length

lemma storeMonitor_injected (c : CallContext) (m : WebhookMsg) :
    (storeMonitor c m).message_injected = c.message_injected := by
  unfold storeMonitor
  cases m.monitorUrl with
  | none => rfl
  | some u =>
    by_cases hc : c.control_url = none
    · simp only [hc, if_true]
    · simp only [hc, if_false]

lemma transcriptBranch_injCount (st : CallState) (m : WebhookMsg)
    (c : CallContext) (w : List CtxWrite) :
    injCount (transcriptBranch st m c w).actions = 0 := by
  unfold transcriptBranch
  by_cases h1 : (c.message_injected && !c.message_delivered) = true
  · rw [if_pos h1]
    by_cases h2 : containsSub (c.assistant_transcript ++ m.transcript) deliveredPhrase = true
    · rw [if_pos h2]
      cases c.control_url <;> simp [injCount, isBaseInject]
    · rw [if_neg h2]
      simp [injCount]
  · rw [if_neg h1]
    simp [injCount]

lemma transcriptBranch_state_other (st : CallState) (m : WebhookMsg)
    (c : CallContext) (w : List CtxWrite) (cid : String) (hc : cid ≠ m.callId) :
    (transcriptBranch st m c w).state cid = st cid := by
  unfold transcriptBranch
  by_cases h1 : (c.message_injected && !c.message_delivered) = true
  · rw [if_pos h1]
    by_cases h2 : containsSub (c.assistant_transcript ++ m.transcript) deliveredPhrase = true
    · rw [if_pos h2]
      cases c.control_url <;> simp [updCtx, hc]
    · rw [if_neg h2]
      simp [updCtx, hc]
  · rw [if_neg h1]
    simp [updCtx, hc]

lemma transcriptBranch_injected (st : CallState) (m : WebhookMsg)
    (c : CallContext) (w : List CtxWrite) :
    ((transcriptBranch st m c w).state m.callId).message_injected =
      c.message_injected := by
  unfold transcriptBranch
  by_cases h1 : (c.message_injected && !c.message_delivered) = true
  · rw [if_pos h1]
    by_cases h2 : containsSub (c.assistant_transcript ++ m.transcript) deliveredPhrase = true
    · rw [if_pos h2]
      cases c.control_url <;> simp [updCtx]
    · rw [if_neg h2]
      simp [updCtx]
  · rw [if_neg h1]
    simp [updCtx]

/-- Once `message_injected` or `ending` holds, a conversation-update is
skipped: the context is untouched, no side effect runs, and the handler
answers "skipped". -/
lemma handleConvUpdate_skip (cid : String) (c : CallContext) (a : IvrAnalysis)
    (h : c.message_injected = true ∨ c.ending = true) :
    handleConvUpdate cid c a = ⟨c, [], [], some "skipped"⟩ := by
  rcases h with h | h
  · cases hE : c.ending
    · simp [handleConvUpdate, hE, h]
    · simp [handleConvUpdate, hE]
  · simp [handleConvUpdate, h]

/-- A single conversation-update injects the base script at most once, and
doing so records `message_injected`. -/
lemma handleConvUpdate_injCount (cid : String) (c : CallContext) (a : IvrAnalysis) :
    injCount (handleConvUpdate cid c a).actions ≤ 1 ∧
      (1 ≤ injCount (handleConvUpdate cid c a).actions →
        (handleConvUpdate cid c a).ctx.message_injected = true) := by
  unfold handleConvUpdate
  dsimp only
  repeat' split
  all_goals simp [injCount, isBaseInject]

lemma handleConvUpdate_no_inject (cid : String) (c : CallContext) (a : IvrAnalysis)
    (h : c.message_injected = true) :
    injCount (handleConvUpdate cid c a).actions = 0 := by
  rw [handleConvUpdate_skip cid c a (Or.inl h)]
  rfl

/-- A webhook event addressed to a different call id leaves a context
untouched. -/
lemma step_other (st : CallState) (m : WebhookMsg) (cid : String)
    (hc : cid ≠ m.callId) :
    (vapiWebhookStep st m).state cid = st cid := by
  unfold vapiWebhookStep
  by_cases hT : m.eventType = "transcript" ∧ m.role = "assistant"
  · rw [if_pos hT]
    exact transcriptBranch_state_other st m _ _ cid hc
  · rw [if_neg hT]
    by_cases hC : m.eventType = "conversation-update"
    · rw [if_pos hC]
      simp [updCtx, hc]
    · rw [if_neg hC]
      by_cases hE : m.eventType = "end-of-call"
      · rw [if_pos hE]
        simp [updCtx, hc]
      · rw [if_neg hE]
        simp [updCtx, hc]

/-- `message_injected` is monotone along every webhook event. -/
lemma step_injected_mono (st : CallState) (m : WebhookMsg) (cid : String)
    (h : (st cid).message_injected = true) :
    ((vapiWebhookStep st m).state cid).message_injected = true := by
  by_cases hc : cid = m.callId
  · subst hc
    have hi : (storeMonitor (st m.callId) m).message_injected = true := by
      rw [storeMonitor_injected]; exact h
    unfold vapiWebhookStep
    by_cases hT : m.eventType = "transcript" ∧ m.role = "assistant"
    · rw [if_pos hT, transcriptBranch_injected]
      exact hi
    · rw [if_neg hT]
      by_cases hC : m.eventType = "conversation-update"
      · rw [if_pos hC]
        rw [handleConvUpdate_skip m.callId _ m.analysis (Or.inl hi)]
        simpa [updCtx] using hi
      · rw [if_neg hC]
        by_cases hE : m.eventType = "end-of-call"
        · rw [if_pos hE]
          simpa [updCtx] using hi
        · rw [if_neg hE]
          simpa [updCtx] using hi
  · rw [step_other st m cid hc]
    exact h

/-- A single webhook event injects the base script at most once, and an
injection records `message_injected` on the call it addressed. -/
lemma step_injCount (st : CallState) (m : WebhookMsg) :
    injCount (vapiWebhookStep st m).actions ≤ 1 ∧
      (1 ≤ injCount (vapiWebhookStep st m).actions →
        ((vapiWebhookStep st m).state m.callId).message_injected = true) := by
  unfold vapiWebhookStep
  by_cases hT : m.eventType = "transcript" ∧ m.role = "assistant"
  · rw [if_pos hT]
    rw [transcriptBranch_injCount]
    exact ⟨Nat.zero_le 1, fun h1 => absurd h1 (by omega)⟩
  · rw [if_neg hT]
    by_cases hC : m.eventType = "conversation-update"
    · rw [if_pos hC]
      have h2 := handleConvUpdate_injCount m.callId (storeMonitor (st m.callId) m) m.analysis
      refine ⟨h2.1, ?_⟩
      intro h1
      simpa [updCtx] using h2.2 h1
    · rw [if_neg hC]
      by_cases hE : m.eventType = "end-of-call"
      · rw [if_pos hE]
        refine ⟨?_, ?_⟩ <;> simp [injCount, isBaseInject]
      · rw [if_neg hE]
        refine ⟨?_, ?_⟩ <;> simp [injCount, isBaseInject]

/-- An event for a call whose message was already injected performs no
injection at all. -/
lemma step_no_inject_of_injected (st : CallState) (m : WebhookMsg)
    (h : (st m.callId).message_injected = true) :
    injCount (vapiWebhookStep st m).actions = 0 := by
  have hi : (storeMonitor (st m.callId) m).message_injected = true := by
    rw [storeMonitor_injected]; exact h
  unfold vapiWebhookStep
  by_cases hT : m.eventType = "transcript" ∧ m.role = "assistant"
  · rw [if_pos hT]
    exact transcriptBranch_injCount st m _ _
  · rw [if_neg hT]
    by_cases hC : m.eventType = "conversation-update"
    · rw [if_pos hC]
      exact handleConvUpdate_no_inject m.callId _ m.analysis hi
    · rw [if_neg hC]
      by_cases hE : m.eventType = "end-of-call"
      · rw [if_pos hE]
        simp [injCount, isBaseInject]
      · rw [if_neg hE]
        simp [injCount]

/-- Processing a sequence of webhook payloads, threading `call_contexts`,
collecting every side-effect action tagged with the call id that caused it. -/
def runWebhooks : CallState → List WebhookMsg → CallState × List (String × CallAction)
  | st, [] => (st, [])
  | st, m :: ms =>
    let o := vapiWebhookStep st m
    let r := runWebhooks o.state ms
    (r.1, o.actions.map (fun a => (m.callId, a)) ++ r.2)

def injectsFor (cid : String) (l : List (String × CallAction)) : Nat :=
  (l.filter (fun p => p.1 == cid && isBaseInject p.2)).length

lemma injectsFor_append (cid : String) (l1 l2 : List (String × CallAction)) :
    injectsFor cid (l1 ++ l2) = injectsFor cid l1 + injectsFor cid l2 := by
  simp [injectsFor, List.filter_append]

lemma injectsFor_map_tag (cid x : String) (acts : List CallAction) :
    injectsFor cid (acts.map fun a => (x, a)) =
      if x = cid then injCount acts else 0 := by
  unfold injectsFor injCount
  rw [List.filter_map]
  by_cases hx : x = cid
  · subst hx
    simp [Function.comp_def]
  · simp [Function.comp_def, hx]

lemma run_no_inject (msgs : List WebhookMsg) : ∀ (st : CallState) (cid : String),
    (st cid).message_injected = true →
    injectsFor cid (runWebhooks st msgs).2 = 0 := by
  induction msgs with
  | nil => intro st cid _; rfl
  | cons m ms ih =>
    intro st cid h
    unfold runWebhooks
    dsimp only
    rw [injectsFor_append, injectsFor_map_tag]
    rw [ih (vapiWebhookStep st m).state cid (step_injected_mono st m cid h)]
    by_cases hx : m.callId = cid
    · rw [if_pos hx]
      have h0 : injCount (vapiWebhookStep st m).actions = 0 :=
        step_no_inject_of_injected st m (by rw [hx]; exact h)
      omega
    · rw [if_neg hx]

lemma run_injects_le_one (msgs : List WebhookMsg) :
    ∀ (st : CallState) (cid : String),
    injectsFor cid (runWebhooks st msgs).2 ≤ 1 := by
  induction msgs with
  | nil => intro st cid; exact Nat.zero_le 1
  | cons m ms ih =>
    intro st cid
    unfold runWebhooks
    dsimp only
    rw [injectsFor_append, injectsFor_map_tag]
    by_cases hx : m.callId = cid
    · rw [if_pos hx]
      rcases Nat.eq_zero_or_pos (injCount (vapiWebhookStep st m).actions) with h0 | h1
      · rw [h0]
        simpa using ih (vapiWebhookStep st m).state cid
      · have hle := (step_injCount st m).1
        have hflag := (step_injCount st m).2 h1
        rw [hx] at hflag
        have hrest := run_no_inject ms (vapiWebhookStep st m).state cid hflag
        omega
    · rw [if_neg hx]
      simpa using ih (vapiWebhookStep st m).state cid

/-- C1: per call, the boolean flags `message_injected`, `message_delivered`
and `ending` track the call, and once `message_injected` (or `ending`) is
true a conversation-update is skipped without injecting the base script
again; over every sequence of webhook events (hence every sequence of
`handle_conversation_update` invocations), at most one base-script injection
occurs for any given call id. -/
theorem conv_update_single_inject :
    (∀ (msgs : List WebhookMsg) (cid : String),
        injectsFor cid (runWebhooks initState msgs).2 ≤ 1) ∧
    (∀ (cid : String) (ctx : CallContext) (a : IvrAnalysis),
        ctx.message_injected = true ∨ ctx.ending = true →
        handleConvUpdate cid ctx a = ⟨ctx, [], [], some "skipped"⟩) :=
  ⟨fun msgs cid => run_injects_le_one msgs initState cid,
   fun cid ctx a h => handleConvUpdate_skip cid ctx a h⟩

/-- Concrete events for the C1 witness: two conversation updates that would
both try to inject. -/
def msgW1 : WebhookMsg :=
  { eventType := "conversation-update"
    callId := "c1"
    role := ""
    transcript := ""
    monitorUrl := some "http://m"
    analysis :=
      { is_human := true, ivr_detected := false, ivr_options := [], scenario := "no_ivr" }
    cost := 0 }

def ctxInjW : CallContext := { initCtx with message_injected := true }

/-- Witness for C1: a concrete two-event run injects at most once, and a
concrete already-injected context is skipped unchanged. -/
theorem conv_update_single_inject_check :
    injectsFor "c1" (runWebhooks initState [msgW1, msgW1]).2 ≤ 1 ∧
    handleConvUpdate "c1" ctxInjW msgW1.analysis = ⟨ctxInjW, [], [], some "skipped"⟩ :=
  ⟨conv_update_single_inject.1 [msgW1, msgW1] "c1",
   conv_update_single_inject.2 "c1" ctxInjW msgW1.analysis (Or.inl rfl)⟩

/-! ## Calling-Agent: the lock dictionary and what runs under it (C2)

`locks = defaultdict(asyncio.Lock)` (line 38) allocates a fresh lock the
first time a call id is looked up and returns the stored one afterwards.
The defaultdict is modelled by its allocation order: `seen` is the list of
call ids in order of first lookup, a lock is identified by its allocation
index, and a lookup appends the id if it is new. -/

def acquireLock (seen : List String) (cid : String) : List String :=
  if cid ∈ seen then seen else seen ++ [cid]

def lockOf (seen : List String) (cid : String) : Nat := seen.indexOf cid

lemma monitorWrites_unlocked (c : CallContext) (m : WebhookMsg) :
    ∀ w ∈ monitorWrites c m, w.locked = false := by
  unfold monitorWrites
  cases m.monitorUrl with
  | none => simp
  | some u =>
    by_cases hc : c.control_url = none
    · simp [hc]
    · simp [hc]

lemma monitorWrites_field (c : CallContext) (m : WebhookMsg) :
    ∀ w ∈ monitorWrites c m, w.field = "control_url" := by
  unfold monitorWrites
  cases m.monitorUrl with
  | none => simp
  | some u =>
    by_cases hc : c.control_url = none
    · simp [hc]
    · simp [hc]

/-- All context writes performed by `handle_conversation_update` happen
inside `async with locks[call_id]`. -/
lemma handleConvUpdate_writes_locked (cid : String) (c : CallContext)
    (a : IvrAnalysis) : ∀ w ∈ (handleConvUpdate cid c a).writes, w.locked = true := by
  unfold handleConvUpdate
  dsimp only
  repeat' split
  all_goals simp

/-- All context writes performed by the assistant-transcript branch happen
outside the lock. -/
lemma transcriptBranch_writes_unlocked (st : CallState) (m : WebhookMsg)
    (c : CallContext) (w1 : List CtxWrite) (h1 : ∀ w ∈ w1, w.locked = false) :
    ∀ w ∈ (transcriptBranch st m c w1).writes, w.locked = false := by
  unfold transcriptBranch
  by_cases hA : (c.message_injected && !c.message_delivered) = true
  · rw [if_pos hA]
    by_cases hB : containsSub (c.assistant_transcript ++ m.transcript) deliveredPhrase = true
    · rw [if_pos hB]
      cases c.control_url with
      | some url =>
        intro w hw
        rcases List.mem_append.mp hw with h | h
        · exact h1 w h
        · simp at h
          rcases h with rfl | rfl | rfl <;> rfl
      | none =>
        intro w hw
        rcases List.mem_append.mp hw with h | h
        · exact h1 w h
        · simp at h
          rcases h with rfl | rfl <;> rfl
    · rw [if_neg hB]
      intro w hw
      rcases List.mem_append.mp hw with h | h
      · exact h1 w h
      · simp at h
        rcases h with rfl
        rfl
  · rw [if_neg hA]
    exact h1

/-- C2 (amended): the only concurrency coordination is the dictionary of
locks keyed by call id: distinct call ids always map to distinct locks, a
lookup of an id already seen returns the same lock as before, and the
context updates performed by `handle_conversation_update` run while holding
the lock of that call id; the control-URL store at the top of the webhook
and the whole assistant-transcript path, however, update the context without
holding any lock. -/
theorem locks_spec :
    (∀ (seen : List String) (a b : String), a ∈ seen → b ∈ seen → a ≠ b →
        lockOf seen a ≠ lockOf seen b) ∧
    (∀ (seen : List String) (c a : String), a ∈ seen →
        lockOf (acquireLock seen c) a = lockOf seen a ∧ a ∈ acquireLock seen c) ∧
    (∀ (cid : String) (c : CallContext) (a : IvrAnalysis),
        ∀ w ∈ (handleConvUpdate cid c a).writes, w.locked = true) ∧
    (∀ (st : CallState) (m : WebhookMsg),
        m.eventType = "transcript" → m.role = "assistant" →
        ∀ w ∈ (vapiWebhookStep st m).writes, w.locked = false) ∧
    (∀ (st : CallState) (m : WebhookMsg), m.eventType = "conversation-update" →
        ∀ w ∈ (vapiWebhookStep st m).writes,
          w.locked = true ∨ w.field = "control_url") := by
  refine ⟨?_, ?_, ?_, ?_, ?_⟩
  · intro seen a b ha hb hab h
    exact hab ((List.indexOf_inj ha hb).mp h)
  · intro seen c a ha
    unfold acquireLock lockOf
    by_cases hc : c ∈ seen
    · rw [if_pos hc]
      exact ⟨rfl, ha⟩
    · rw [if_neg hc]
      exact ⟨List.indexOf_append_of_mem ha, List.mem_append_left _ ha⟩
  · exact handleConvUpdate_writes_locked
  · intro st m hT hR
    unfold vapiWebhookStep
    rw [if_pos ⟨hT, hR⟩]
    exact transcriptBranch_writes_unlocked st m _ _
      (monitorWrites_unlocked (st m.callId) m)
  · intro st m hC
    have hT : ¬(m.eventType = "transcript" ∧ m.role = "assistant") := by
      rw [hC]
      rintro ⟨h, -⟩
      exact absurd h (by decide)
    unfold vapiWebhookStep
    rw [if_neg hT, if_pos hC]
    intro w hw
    rcases List.mem_append.mp hw with h | h
    · exact Or.inr (monitorWrites_field (st m.callId) m w h)
    · exact Or.inl (handleConvUpdate_writes_locked m.callId _ m.analysis w h)

/-- Concrete state and message refuting the original claim: an assistant
transcript event for a call with the message already injected. -/
def stCtr : CallState := fun _ => { initCtx with message_injected := true }

def msgCtr : WebhookMsg :=
  { eventType := "transcript"
    callId := "c1"
    role := "assistant"
    transcript := "hello"
    monitorUrl := none
    analysis := aW4
    cost := 0 }

/-- Counterexample for C2 as stated: on a concrete assistant-transcript
event the webhook handler performs a context write while NOT holding the
lock for the call id, so not every webhook-driven update of a call context
is performed under the lock. -/
theorem webhook_lock_counterexample :
    ∃ w ∈ (vapiWebhookStep stCtr msgCtr).writes, w.locked = false := by
  decide

/-- Witness for C2 (amended): concrete instantiations of the lock-table
facts and of the unlocked transcript-path write. -/
theorem locks_spec_check :
    lockOf ["a", "b"] "a" ≠ lockOf ["a", "b"] "b" ∧
    lockOf (acquireLock ["a", "b"] "c") "b" = lockOf ["a", "b"] "b" ∧
    (∀ w ∈ (vapiWebhookStep stCtr msgCtr).writes, w.locked = false) := by
  refine ⟨?_, ?_, ?_⟩
  · exact locks_spec.1 ["a", "b"] "a" "b" (by decide) (by decide) (by decide)
  · exact (locks_spec.2.1 ["a", "b"] "c" "b" (by decide)).1
  · exact locks_spec.2.2.2.1 stCtr msgCtr rfl rfl

/-! ## Chatbot backends: data model

Both backends hold `query_history` (section to list of query records) and
`chat_titles` (section to dict from chat id to a title record).  Both are
initialized with the same three keys and no handler ever adds or removes a
key of the outer dicts, so in every reachable state their key set is the
constant `chatSections`. -/

structure QEntry where
  chat_id : String
  query : String
  response : String
  timestamp : String

structure TitleEntry where
  queries : List String
  title : Option String
  timestamp : String

def chatSections : List String := ["main", "for_against", "bare_acts"]

/-- The mutable module state of a chatbot backend: the contents of
`query_history[s]` and `chat_titles[s]` for each section of the fixed key
set (other strings never hold data). -/
structure ChatState where
  query_history : String → List QEntry
  chat_titles : String → List (String × TitleEntry)

structure ClearOut where
  state : ChatState
  status : Nat
  body : String

/-- `clear_history` of src/Chatbot.py (lines 198-211).  The `try` body only
clears lists/dicts under present keys, which cannot raise, so the `except`
arm is dead code and the handler equals its `try` body. -/
def clear_history_v1 (s : String) (st : ChatState) : ClearOut :=
  if s ∈ chatSections then
    { state :=
        { query_history := fun t => if t = s then [] else st.query_history t
          chat_titles := fun t => if t = s then [] else st.chat_titles t }
      status := 200
      body := "History cleared for " ++ s }
  else { state := st, status := 400, body := "Invalid section" }

/-- `clear_history` of src/Chatbot/Chatbot.py (lines 451-457): the same body
without the `try`/`except` wrapper. -/
def clear_history_v2 (s : String) (st : ChatState) : ClearOut :=
  if s ∈ chatSections then
    { state :=
        { query_history := fun t => if t = s then [] else st.query_history t
          chat_titles := fun t => if t = s then [] else st.chat_titles t }
      status := 200
      body := "History cleared for " ++ s }
  else { state := st, status := 400, body := "Invalid section" }

/-- C5: the two copies of the history-clearing endpoint are behaviorally
equivalent: same status and body (200 with the cleared message for a known
section, 400 with an error otherwise) and the same state change, emptying
the query history and chat titles of exactly that section. -/
theorem clear_history_equiv (s : String) (st : ChatState) :
    clear_history_v1 s st = clear_history_v2 s st ∧
    (s ∈ chatSections →
      (clear_history_v1 s st).status = 200 ∧
      (clear_history_v1 s st).body = "History cleared for " ++ s ∧
      (clear_history_v1 s st).state.query_history s = [] ∧
      (clear_history_v1 s st).state.chat_titles s = []) ∧
    (s ∉ chatSections →
      (clear_history_v1 s st).status = 400 ∧
      (clear_history_v1 s st).body = "Invalid section" ∧
      (clear_history_v1 s st).state = st) := by
  refine ⟨rfl, ?_, ?_⟩
  · intro hs
    unfold clear_history_v1
    rw [if_pos hs]
    exact ⟨rfl, rfl, by simp, by simp⟩
  · intro hs
    unfold clear_history_v1
    rw [if_neg hs]
    exact ⟨rfl, rfl, rfl⟩

def stWch : ChatState :=
  { query_history := fun _ => [], chat_titles := fun _ => [] }

/-- Witness for C5: concrete known and unknown sections. -/
theorem clear_history_equiv_check :
    clear_history_v1 "main" stWch = clear_history_v2 "main" stWch ∧
    (clear_history_v1 "main" stWch).status = 200 ∧
    (clear_history_v1 "nope" stWch).status = 400 := by
  have h1 := clear_history_equiv "main" stWch
  have h2 := clear_history_equiv "nope" stWch
  exact ⟨h1.1, (h1.2.1 (by decide)).1, (h2.2.2 (by decide)).1⟩

/-- C10: clearing a valid section touches only that section in both copies;
for an invalid section both return 400 and leave the whole state unchanged. -/
theorem clear_history_frame (s : String) (st : ChatState) :
    (s ∈ chatSections → ∀ t, t ≠ s →
      (clear_history_v1 s st).state.query_history t = st.query_history t ∧
      (clear_history_v1 s st).state.chat_titles t = st.chat_titles t ∧
      (clear_history_v2 s st).state.query_history t = st.query_history t ∧
      (clear_history_v2 s st).state.chat_titles t = st.chat_titles t) ∧
    (s ∉ chatSections →
      (clear_history_v1 s st).state = st ∧ (clear_history_v1 s st).status = 400 ∧
      (clear_history_v2 s st).state = st ∧ (clear_history_v2 s st).status = 400) := by
  constructor
  · intro hs t ht
    simp [clear_history_v1, clear_history_v2, hs, ht]
  · intro hs
    simp [clear_history_v1, clear_history_v2, hs]

/-- Witness for C10: clearing "main" leaves "bare_acts" untouched; clearing
an unknown section changes nothing. -/
theorem clear_history_frame_check :
    (clear_history_v1 "main" stWch).state.query_history "bare_acts" =
      stWch.query_history "bare_acts" ∧
    (clear_history_v2 "nope" stWch).state = stWch := by
  have h1 := clear_history_frame "main" stWch
  have h2 := clear_history_frame "nope" stWch
  exact ⟨(h1.1 (by decide) "bare_acts" (by decide)).1, (h2.2 (by decide)).2.2.1⟩

/-! ## Chatbot copy 2: the /chat endpoint (C8) -/

inductive PyErr where
  | keyError
deriving DecidableEq

structure ChatResult where
  status : Nat
  body : String
  streaming : Bool
  chat_id : Option String

/-- Indexing the outer dict `chat_titles[section]`: a KeyError for a section
outside the fixed key set. -/
def titlesIndex (st : ChatState) (s : String) :
    Except PyErr (List (String × TitleEntry)) :=
  if s ∈ chatSections then Except.ok (st.chat_titles s) else Except.error PyErr.keyError

/-- Python dict assignment `d[k] = v`: replace the binding if present,
append otherwise. -/
def assocSet (m : List (String × TitleEntry)) (k : String) (v : TitleEntry) :
    List (String × TitleEntry) :=
  match m with
  | [] => [(k, v)]
  | (k2, v2) :: rest => if k2 = k then (k, v) :: rest else (k2, v2) :: assocSet rest k v

def setTitles (st : ChatState) (s : String) (m : List (String × TitleEntry)) :
    ChatState :=
  { st with chat_titles := fun t => if t = s then m else st.chat_titles t }

/-- The `chat` handler of src/Chatbot/Chatbot.py (lines 368-399).  `now`
stands for `get_chat_id()` (a timestamp string) and `genTitle` for the
external `generate_chat_title` call.  Indexing an inner chat dict with
Python `None` (`chat_id` absent) raises KeyError, since its keys are all
strings.  A missing or empty query is the falsy `not user_query` case. -/
def chat_v2 (query sectionName : String) (chatIdIn : Option String) (now : String)
    (genTitle : List String → String) (st0 : ChatState) :
    Except PyErr (ChatResult × ChatState) :=
  if query = "" then
    Except.ok
      ({ status := 400
         body := "No query provided"
         streaming := false
         chat_id := chatIdIn }, st0)
  else
    match
      (if chatIdIn = none ∧ sectionName ≠ "for_against" then
        match titlesIndex st0 sectionName with
        | Except.error e => Except.error e
        | Except.ok m =>
            Except.ok (some now,
              setTitles st0 sectionName
                (assocSet m now { queries := [], title := none, timestamp := now }))
      else Except.ok (chatIdIn, st0) :
        Except PyErr (Option String × ChatState)) with
    | Except.error e => Except.error e
    | Except.ok (chatId, st1) =>
      match
        (if sectionName ≠ "for_against" then
          match titlesIndex st1 sectionName with
          | Except.error e => Except.error e
          | Except.ok m =>
            match chatId with
            | none => Except.error PyErr.keyError
            | some k =>
              match m.lookup k with
              | none => Except.error PyErr.keyError
              | some e =>
                  Except.ok (setTitles st1 sectionName
                    (assocSet m k { e with queries := e.queries ++ [query] }))
        else Except.ok st1 : Except PyErr ChatState) with
      | Except.error e => Except.error e
      | Except.ok st2 =>
        match titlesIndex st2 sectionName with
        | Except.error e => Except.error e
        | Except.ok m =>
          match chatId with
          | none => Except.error PyErr.keyError
          | some k =>
            match m.lookup k with
            | none => Except.error PyErr.keyError
            | some e =>
              Except.ok
                ({ status := 200, body := "", streaming := true, chat_id := chatId },
                  if e.queries.length = 2 then
                    setTitles st2 sectionName
                      (assocSet m k { e with title := some (genTitle e.queries) })
                  else st2)

/-- C8: a POST /chat with a non-empty query, section "for_against" and no
chat id raises KeyError (indexing the for_against title dict with None)
before any streaming response is produced, for every state: a new
for_against conversation can never be started through this endpoint. -/
theorem chat_for_against_keyerror (query now : String)
    (genTitle : List String → String) (st : ChatState) (hq : query ≠ "") :
    chat_v2 query "for_against" none now genTitle st =
      Except.error PyErr.keyError := by
  unfold chat_v2
  rw [if_neg hq]
  rfl

/-- Witness for C8: a concrete request on the empty state. -/
theorem chat_for_against_keyerror_check :
    chat_v2 "hello" "for_against" none "20250101" (fun _ => "T") stWch =
      Except.error PyErr.keyError :=
  chat_for_against_keyerror "hello" "20250101" (fun _ => "T") stWch (by decide)

/-! ## Chatbot copy 2: the /autocomplete endpoint (C9) -/

/-- A regex `\w` character (ASCII view of the word class applied to
lowercased text). -/
def isWordChar (c : Char) : Bool := c.isAlphanum || c == '_'

def wordsAux : List Char → List Char → List String
  | [], acc => if acc.isEmpty then [] else [String.mk acc.reverse]
  | c :: cs, acc =>
    if isWordChar c then wordsAux cs (c :: acc)
    else if acc.isEmpty then wordsAux cs []
    else String.mk acc.reverse :: wordsAux cs []

/-- `re.findall(r"\b\w+\b", s)`: the maximal runs of word characters. -/
def pyFindWords (s : String) : List String := wordsAux s.data []

/-- `set.update` element step: Python set insertion, modelled by a
duplicate-free list. -/
def setInsert (l : List String) (w : String) : List String :=
  if w ∈ l then l else l ++ [w]

def setUnion (l : List String) (ws : List String) : List String :=
  ws.foldl setInsert l

/-- The words contributed by one history entry (line 470-475): the word runs
of the lowercased query and of the lowercased response. -/
def entryWords (e : QEntry) : List String :=
  pyFindWords (lowerStr e.query) ++ pyFindWords (lowerStr e.response)

def collectWords (entries : List QEntry) : List String :=
  entries.foldl (fun acc e => setUnion acc (entryWords e)) []

/-- The `autocomplete` handler of src/Chatbot/Chatbot.py (lines 459-481):
collect the word set of the stored queries and responses of the section,
keep those starting with the lowercased search term, and return the first 5
in sorted order; unknown sections yield the empty suggestion list.  Python
`sorted` is modelled by insertion sort (the input is duplicate-free, so
every sorting algorithm returns the same list). -/
def autocomplete (term s : String) (st : ChatState) : List String :=
  if s ∈ chatSections then
    (List.insertionSort (fun a b => a ≤ b)
      ((collectWords (st.query_history s)).filter
        (fun w => w.startsWith (lowerStr term)))).take 5
  else []

lemma mem_setInsert {l : List String} {x w : String} (h : w ∈ setInsert l x) :
    w ∈ l ∨ w = x := by
  unfold setInsert at h
  by_cases hx : x ∈ l
  · rw [if_pos hx] at h
    exact Or.inl h
  · rw [if_neg hx] at h
    rcases List.mem_append.mp h with h | h
    · exact Or.inl h
    · simp at h
      exact Or.inr h

lemma mem_setUnion {w : String} :
    ∀ (ws l : List String), w ∈ setUnion l ws → w ∈ l ∨ w ∈ ws := by
  intro ws
  induction ws with
  | nil => exact fun l h => Or.inl h
  | cons x xs ih =>
    intro l h
    rcases ih (setInsert l x) h with h2 | h2
    · rcases mem_setInsert h2 with h3 | h3
      · exact Or.inl h3
      · subst h3
        exact Or.inr (List.mem_cons_self _ _)
    · exact Or.inr (List.mem_cons_of_mem _ h2)

lemma mem_foldl_setUnion {w : String} :
    ∀ (entries : List QEntry) (acc : List String),
      w ∈ entries.foldl (fun acc e => setUnion acc (entryWords e)) acc →
      w ∈ acc ∨ ∃ e ∈ entries, w ∈ entryWords e := by
  intro entries
  induction entries with
  | nil => exact fun acc h => Or.inl h
  | cons e es ih =>
    intro acc h
    rcases ih (setUnion acc (entryWords e)) h with h3 | h3
    · rcases mem_setUnion _ _ h3 with h4 | h4
      · exact Or.inl h4
      · exact Or.inr ⟨e, List.mem_cons_self _ _, h4⟩
    · rcases h3 with ⟨e2, he2, hw2⟩
      exact Or.inr ⟨e2, List.mem_cons_of_mem _ he2, hw2⟩

lemma mem_collectWords {w : String} {entries : List QEntry}
    (h : w ∈ collectWords entries) : ∃ e ∈ entries, w ∈ entryWords e := by
  rcases mem_foldl_setUnion entries [] h with h2 | h2
  · exact absurd h2 (List.not_mem_nil w)
  · exact h2

/-- C9: the autocomplete handler returns at most 5 words, sorted ascending,
each beginning with the lowercased search term and occurring as a word in
some stored query or response of the requested section; for a section not
present in `query_history` it returns the empty list. -/
theorem autocomplete_spec (term s : String) (st : ChatState) :
    (autocomplete term s st).length ≤ 5 ∧
    List.Sorted (fun a b : String => a ≤ b) (autocomplete term s st) ∧
    (∀ w ∈ autocomplete term s st,
      w.startsWith (lowerStr term) = true ∧
      ∃ e ∈ st.query_history s,
        w ∈ pyFindWords (lowerStr e.query) ∨ w ∈ pyFindWords (lowerStr e.response)) ∧
    (s ∉ chatSections → autocomplete term s st = []) := by
  by_cases hs : s ∈ chatSections
  · refine ⟨?_, ?_, ?_, fun h => absurd hs h⟩
    · unfold autocomplete
      rw [if_pos hs, List.length_take]
      exact min_le_left _ _
    · unfold autocomplete
      rw [if_pos hs]
      exact (List.sorted_insertionSort _ _).sublist (List.take_sublist _ _)
    · intro w hw
      unfold autocomplete at hw
      rw [if_pos hs] at hw
      have hw1 := List.mem_of_mem_take hw
      have hw2 := (List.perm_insertionSort (fun a b : String => a ≤ b) _).mem_iff.mp hw1
      have hw3 := List.mem_filter.mp hw2
      refine ⟨hw3.2, ?_⟩
      rcases mem_collectWords hw3.1 with ⟨e, he, hwe⟩
      exact ⟨e, he, List.mem_append.mp hwe⟩
  · have h0 : autocomplete term s st = [] := by
      unfold autocomplete
      rw [if_neg hs]
    rw [h0]
    exact ⟨by simp, List.sorted_nil, by simp, fun _ => rfl⟩

def stWauto : ChatState :=
  { query_history := fun t =>
      if t = "main" then [⟨"1", "Hello legal world", "hello again", "ts"⟩] else []
    chat_titles := fun _ => [] }

/-- Witness for C9: a concrete state and term, plus the unknown-section
case. -/
theorem autocomplete_spec_check :
    (autocomplete "he" "main" stWauto).length ≤ 5 ∧
    autocomplete "he" "nope" stWauto = [] := by
  have h1 := autocomplete_spec "he" "main" stWauto
  have h2 := autocomplete_spec "he" "nope" stWauto
  exact ⟨h1.1, h2.2.2.2 (by decide)⟩

/-! ## v.py: the spreadsheet/video batch loop (C6) -/

/-- Python `str.strip()` (ASCII whitespace view): drop leading and trailing
whitespace characters. -/
def isPySpace (c : Char) : Bool :=
  c = ' ' || c = '\t' || c = '\n' || c = '\r' || c = '\x0b' || c = '\x0c'

def pyStrip (s : String) : String :=
  String.mk (((s.data.dropWhile isPySpace).reverse.dropWhile isPySpace).reverse)

/-- The row filter of `get_sheet_data` (line 347): at least four cells and
all of the first four non-blank after stripping. -/
def rowValid (row : List String) : Bool :=
  decide (4 ≤ row.length) && (row.take 4).all fun c => decide (pyStrip c ≠ "")

def sheetFilter : List (List String) → List (List String)
  | [] => []
  | row :: rest => if rowValid row then row :: sheetFilter rest else sheetFilter rest

/-- `get_sheet_data` (lines 335-351): an empty fetch short-circuits to `[]`,
otherwise the header row is dropped and the valid rows kept in order. -/
def get_sheet_data (values : List (List String)) : List (List String) :=
  if values.isEmpty then [] else sheetFilter (values.drop 1)

structure DriveFile where
  id : String
  name : String
deriving DecidableEq

def byName (a b : DriveFile) : Prop := a.name ≤ b.name

instance : DecidableRel byName := fun a b =>
  inferInstanceAs (Decidable (a.name ≤ b.name))

instance : IsTotal DriveFile byName := ⟨fun a b => le_total a.name b.name⟩

instance : IsTrans DriveFile byName := ⟨fun _ _ _ h1 h2 => le_trans h1 h2⟩

/-- The pagination loop of `list_videos_in_folder` (lines 353-368):
concatenate the `files` arrays of the successive API pages. -/
def collectPages : List (List DriveFile) → List DriveFile
  | [] => []
  | page :: rest => page ++ collectPages rest

/-- `list_videos_in_folder` returns the collected files
`sorted(..., key=lambda f: f['name'])`; Python sorted is modelled by
insertion sort (both are stable). -/
def list_videos_in_folder (pages : List (List DriveFile)) : List DriveFile :=
  List.insertionSort byName (collectPages pages)

inductive VOutcome where
  | ok
  | processFail
  | downloadFail
deriving DecidableEq

inductive VAction where
  | download (fileId setId : String)
  | processVid (setId : String) (texts : List String) (videoName : String) (success : Bool)
  | removeTemp (setId : String)
deriving DecidableEq

/-- One iteration of the loop in `main` (lines 401-420) on a row/video pair:
download, process unless the download raised, and in the `finally` block
delete the temp file if it exists (`tempExists` models `os.path.exists`). -/
def iterBlock (row : List String) (vid : DriveFile) (outcome : VOutcome)
    (tempExists : Bool) : List VAction :=
  [VAction.download vid.id (pyStrip (row.headD ""))] ++
    (match outcome with
     | VOutcome.downloadFail => []
     | VOutcome.processFail =>
        [VAction.processVid (pyStrip (row.headD ""))
          [pyStrip (row.getD 1 ""), pyStrip (row.getD 2 ""), pyStrip (row.getD 3 "")]
          vid.name false]
     | VOutcome.ok =>
        [VAction.processVid (pyStrip (row.headD ""))
          [pyStrip (row.getD 1 ""), pyStrip (row.getD 2 ""), pyStrip (row.getD 3 "")]
          vid.name true]) ++
    (if tempExists then [VAction.removeTemp (pyStrip (row.headD ""))] else [])

def dfD : DriveFile := ⟨"", ""⟩

/-- `for idx in range(n)` of `main`: one action block per iteration, in
order. -/
def mainBlocks (rows : List (List String)) (vids : List DriveFile)
    (orc : Nat → VOutcome) (tmp : Nat → Bool) : Nat → List (List VAction)
  | 0 => []
  | n + 1 =>
      mainBlocks rows vids orc tmp n ++
        [iterBlock (rows.getD n []) (vids.getD n dfD) (orc n) (tmp n)]

/-- `main` (lines 385-422): fetch the valid rows and the sorted videos
(early return when either is empty) and process `min` of the two counts
pairs. -/
def v_main (values : List (List String)) (pages : List (List DriveFile))
    (orc : Nat → VOutcome) (tmp : Nat → Bool) : List (List VAction) :=
  if (get_sheet_data values).isEmpty then []
  else if (list_videos_in_folder pages).isEmpty then []
  else
    mainBlocks (get_sheet_data values) (list_videos_in_folder pages) orc tmp
      (min (get_sheet_data values).length (list_videos_in_folder pages).length)

lemma sheetFilter_eq_filter (l : List (List String)) :
    sheetFilter l = l.filter rowValid := by
  induction l with
  | nil => rfl
  | cons r rs ih =>
    by_cases h : rowValid r = true <;> simp [sheetFilter, h, ih]

lemma get_sheet_data_eq (values : List (List String)) :
    get_sheet_data values = (values.drop 1).filter rowValid := by
  cases values with
  | nil => rfl
  | cons v vs => simpa [get_sheet_data] using sheetFilter_eq_filter vs

lemma mainBlocks_eq_map (rows : List (List String)) (vids : List DriveFile)
    (orc : Nat → VOutcome) (tmp : Nat → Bool) : ∀ n,
    mainBlocks rows vids orc tmp n =
      (List.range n).map
        (fun i => iterBlock (rows.getD i []) (vids.getD i dfD) (orc i) (tmp i)) := by
  intro n
  induction n with
  | zero => rfl
  | succ k ih =>
    rw [List.range_succ, List.map_append]
    unfold mainBlocks
    rw [ih]
    rfl

lemma iterBlock_last (row : List String) (vid : DriveFile) (o : VOutcome) :
    (iterBlock row vid o true).getLast? =
      some (VAction.removeTemp (pyStrip (row.headD ""))) := by
  cases o <;> rfl

/-- The number of loop iterations of `main` is exactly the min of the two
counts, also through the early returns. -/
lemma v_main_length (values : List (List String)) (pages : List (List DriveFile))
    (orc : Nat → VOutcome) (tmp : Nat → Bool) :
    (v_main values pages orc tmp).length =
      min (get_sheet_data values).length (list_videos_in_folder pages).length := by
  unfold v_main
  by_cases hr : (get_sheet_data values).isEmpty
  · rw [if_pos hr]
    rw [List.isEmpty_iff] at hr
    simp [hr]
  · rw [if_neg hr]
    by_cases hv : (list_videos_in_folder pages).isEmpty
    · rw [if_pos hv]
      rw [List.isEmpty_iff] at hv
      simp [hv]
    · rw [if_neg hv, mainBlocks_eq_map]
      simp

lemma v_main_getD (values : List (List String)) (pages : List (List DriveFile))
    (orc : Nat → VOutcome) (tmp : Nat → Bool) (i : Nat)
    (hi : i < min (get_sheet_data values).length (list_videos_in_folder pages).length) :
    (v_main values pages orc tmp).getD i [] =
      iterBlock ((get_sheet_data values).getD i [])
        ((list_videos_in_folder pages).getD i dfD) (orc i) (tmp i) := by
  have hlen := v_main_length values pages orc tmp
  have hi' : i < (v_main values pages orc tmp).length := by rw [hlen]; exact hi
  unfold v_main at hi' ⊢
  by_cases hr : (get_sheet_data values).isEmpty
  · rw [if_pos hr] at hi'
    exact absurd hi' (by simp)
  · rw [if_neg hr] at hi' ⊢
    by_cases hv : (list_videos_in_folder pages).isEmpty
    · rw [if_pos hv] at hi'
      exact absurd hi' (by simp)
    · rw [if_neg hv] at hi' ⊢
      rw [mainBlocks_eq_map] at hi' ⊢
      rw [List.getD_eq_getElem _ _ hi']
      simp

/-- C6: the batch loop keeps only the rows whose first four cells are
present and non-blank after stripping, lists the folder videos sorted by
file name, processes exactly `min(#rows, #videos)` pairs matching the i-th
valid row with the i-th sorted video in index order, and each iteration
whose temp file exists ends by deleting it, whether processing succeeded or
failed. -/
theorem v_main_spec (values : List (List String)) (pages : List (List DriveFile))
    (orc : Nat → VOutcome) (tmp : Nat → Bool) :
    get_sheet_data values = (values.drop 1).filter rowValid ∧
    (∀ row ∈ get_sheet_data values,
      4 ≤ row.length ∧ ∀ c ∈ row.take 4, pyStrip c ≠ "") ∧
    List.Sorted byName (list_videos_in_folder pages) ∧
    (list_videos_in_folder pages).Perm (collectPages pages) ∧
    (v_main values pages orc tmp).length =
      min (get_sheet_data values).length (list_videos_in_folder pages).length ∧
    (∀ i, i < min (get_sheet_data values).length (list_videos_in_folder pages).length →
      (v_main values pages orc tmp).getD i [] =
        iterBlock ((get_sheet_data values).getD i [])
          ((list_videos_in_folder pages).getD i dfD) (orc i) (tmp i)) ∧
    (∀ i, i < min (get_sheet_data values).length (list_videos_in_folder pages).length →
      tmp i = true →
      ((v_main values pages orc tmp).getD i []).getLast? =
        some (VAction.removeTemp
          (pyStrip (((get_sheet_data values).getD i []).headD "")))) := by
  refine ⟨get_sheet_data_eq values, ?_, ?_, ?_, v_main_length values pages orc tmp,
    v_main_getD values pages orc tmp, ?_⟩
  · intro row hrow
    rw [get_sheet_data_eq] at hrow
    have hv := (List.mem_filter.mp hrow).2
    unfold rowValid at hv
    rw [Bool.and_eq_true] at hv
    refine ⟨by simpa using hv.1, ?_⟩
    intro c hc
    have := List.all_eq_true.mp hv.2 c hc
    simpa using this
  · exact List.sorted_insertionSort byName (collectPages pages)
  · exact List.perm_insertionSort byName (collectPages pages)
  · intro i hi htmp
    rw [v_main_getD values pages orc tmp i hi, htmp]
    exact iterBlock_last _ _ _

def valuesW : List (List String) :=
  [["h1", "h2", "h3", "h4"], ["s1", "a", "b", "c"], ["", "x", "y", "z"]]

def pagesW : List (List DriveFile) :=
  [[⟨"id2", "b.mp4"⟩], [⟨"id1", "a.mp4"⟩]]

/-- Witness for C6: one header row, one valid and one invalid data row, two
videos across two pages; the single processed pair deletes its temp file
last. -/
theorem v_main_spec_check :
    (v_main valuesW pagesW (fun _ => VOutcome.processFail) (fun _ => true)).getD 0 [] =
      iterBlock ((get_sheet_data valuesW).getD 0 [])
        ((list_videos_in_folder pagesW).getD 0 dfD) VOutcome.processFail true ∧
    ((v_main valuesW pagesW (fun _ => VOutcome.processFail) (fun _ => true)).getD 0 []).getLast? =
      some (VAction.removeTemp (pyStrip (((get_sheet_data valuesW).getD 0 []).headD ""))) := by
  have h := v_main_spec valuesW pagesW (fun _ => VOutcome.processFail) (fun _ => true)
  have hv : (list_videos_in_folder pagesW).length = 2 :=
    (List.perm_insertionSort byName (collectPages pagesW)).length_eq.trans rfl
  have hr : (get_sheet_data valuesW).length = 1 := by decide
  have hlt :
      0 < min (get_sheet_data valuesW).length (list_videos_in_folder pagesW).length := by
    rw [hr, hv]
    decide
  exact ⟨h.2.2.2.2.2.1 0 hlt, h.2.2.2.2.2.2 0 hlt rfl⟩

/-! ## v.py: the caption overlay pipeline (C7)

The moviepy composition built by `process_video` is modelled structurally:
what subclip of the source video each part covers, which caption composite
is overlaid on it, and in which order the parts are concatenated.  Times are
rationals. -/

structure CaptionSpec where
  text : String
  fontsize : Nat
  bgColor : Nat × Nat × Nat
  bgOpacity : ℚ
  cornerRadius : Nat
  position : String × String
  duration : ℚ
  fadeIn : ℚ
  fadeOut : ℚ

/-- `create_text_with_background` (lines 258-292): the caption composite is
the text over a white rounded-rectangle background (radius 12) at the given
opacity, the whole composite positioned at the center of the frame
(`set_position(("center", "center"))`). -/
def create_text_with_background (text : String) (fontsize : Nat) (bgOpacity : ℚ) :
    CaptionSpec :=
  { text := text
    fontsize := fontsize
    bgColor := (255, 255, 255)
    bgOpacity := bgOpacity
    cornerRadius := 12
    position := ("center", "center")
    duration := 0
    fadeIn := 0
    fadeOut := 0 }

/-- The caption clip as prepared inside the loop of `process_video`:
`create_text_with_background(text, ..., fontsize=35, bg_opacity=0.8)`
`.set_duration(t_segment).crossfadein(0.7).crossfadeout(0.7)`. -/
def mkCaption (t : String) (tseg : ℚ) : CaptionSpec :=
  { create_text_with_background t 35 (4 / 5) with
      duration := tseg
      fadeIn := 7 / 10
      fadeOut := 7 / 10 }

inductive VClip where
  | segment (start stop : ℚ)
  | overlay (base : VClip) (cap : CaptionSpec)
  | concat (parts : List VClip)

/-- The `for i, text in enumerate(texts)` loop of `process_video` (lines
305-322): the i-th text is composited over
`video.subclip(i * t_segment, i * t_segment + t_segment)`. -/
def captionClips (tseg : ℚ) : List String → Nat → List VClip
  | [], _ => []
  | t :: rest, i =>
      VClip.overlay (VClip.segment ((i : ℚ) * tseg) ((i : ℚ) * tseg + tseg))
          (mkCaption t tseg) ::
        captionClips tseg rest (i + 1)

/-- `process_video` (lines 298-330): `t_segment = duration / 3`, one
captioned segment per caption text, concatenated in order. -/
def process_video (duration : ℚ) (texts : List String) : VClip :=
  VClip.concat (captionClips (duration / 3) texts 0)

/-- C7: on the three caption texts of a row, `process_video` splits the clip
into three consecutive segments of equal duration (each one third of the
clip duration), composites the i-th caption text, centered with a rounded
semi-opaque background, over the i-th segment, and concatenates the three
captioned segments in order. -/
theorem process_video_spec (d : ℚ) (t1 t2 t3 : String) :
    ∃ c1 c2 c3 : CaptionSpec,
      process_video d [t1, t2, t3] =
        VClip.concat
          [VClip.overlay (VClip.segment 0 (d / 3)) c1,
           VClip.overlay (VClip.segment (d / 3) (2 * (d / 3))) c2,
           VClip.overlay (VClip.segment (2 * (d / 3)) d) c3] ∧
      c1.text = t1 ∧ c2.text = t2 ∧ c3.text = t3 ∧
      (d / 3 - 0 = d / 3 ∧ 2 * (d / 3) - d / 3 = d / 3 ∧ d - 2 * (d / 3) = d / 3) ∧
      (∀ c ∈ [c1, c2, c3],
        c.position = ("center", "center") ∧ c.bgOpacity = 4 / 5 ∧
        (0 < c.bgOpacity ∧ c.bgOpacity < 1) ∧ c.cornerRadius = 12 ∧
        c.duration = d / 3) := by
  refine ⟨mkCaption t1 (d / 3), mkCaption t2 (d / 3), mkCaption t3 (d / 3), ?_,
    rfl, rfl, rfl, ⟨by ring, by ring, by ring⟩, ?_⟩
  · simp only [process_video, captionClips, VClip.concat.injEq, List.cons.injEq,
      VClip.overlay.injEq, VClip.segment.injEq]
    push_cast
    norm_num
    constructor <;> ring
  · intro c hc
    simp only [List.mem_cons, List.not_mem_nil, or_false] at hc
    rcases hc with rfl | rfl | rfl <;>
      exact ⟨rfl, rfl,
        ⟨by norm_num [mkCaption, create_text_with_background],
         by norm_num [mkCaption, create_text_with_background]⟩, rfl, rfl⟩

end Spec2Proof
